import Mathlib

/-!
Verification of the DICOM microservice core (`src/main.py`, `src/utils.py`)
against its natural-language specification.

The embedding below translates the Python source into Lean:

* Pixel normalization (`convert_dicom_to_png`, utils.py lines 75-106) is
  modelled over an idealized IEEE-float type `PyFloat` (NaN, plus/minus
  infinity, or an exact rational): the claims under scrutiny concern the
  handling of non-finite values and the min/max/scale/clip/cast structure,
  none of which depends on binary floating-point rounding.  Pixel grids are
  flattened to lists; every numpy operation involved is elementwise, so a
  list models an array of any shape, with `List.length` standing in for the
  shape.
* Tag parsing (`parse_dicom_tag`, utils.py lines 16-34) is modelled down to
  the semantics of Python's `int(s, 16)` (optional sign, optional `0x`
  prefix, single underscores between digits, arbitrary precision).
* The upload state machine (`process_dicom`, main.py lines 45-107) is
  modelled with explicit state passing: the persistent `FILE_HASH_MAP`
  becomes an association list from digest to identifier, the uploads
  directory becomes an association list from identifier to stored bytes
  (`get_file_path` is the bijection `id ↦ "{id}.dcm"`, so the identifier
  itself keys the store), and `uuid.uuid4()` becomes a fresh-identifier
  counter (the spec itself assumes identifiers are collision-resistant).
  `calculate_file_hash` (sha256) and `is_valid_dicom_file` /
  `pydicom.dcmread` (the external binary-format decoder, a black box per
  the spec) are parameters of the model.
* Python exception flow is made explicit: `fastapi.HTTPException` derives
  from `Exception`, so the blanket `except Exception` handlers in both
  `process_dicom` (main.py line 104) and `dicom_upload` (utils.py line 143)
  catch the `HTTPException(400/404)` instances raised earlier in their own
  `try` blocks and re-raise them as status 500.  The embedding reproduces
  this faithfully.
-/

set_option maxRecDepth 4096

deriving instance DecidableEq for Except

namespace DicomSvc

/-! ## Idealized floats for the pixel pipeline -/

/-- An idealized IEEE double: NaN, one of the two infinities, or an exact
finite value (modelled as a rational). -/
inductive PyFloat
| nan
| inf
| ninf
| fin (q : ℚ)
deriving DecidableEq

/-- `np.isfinite` on a scalar. -/
def isFiniteF : PyFloat → Bool
| .fin _ => true
| _ => false

/-- `np.isnan` on a scalar. -/
def isNaN : PyFloat → Bool
| .nan => true
| _ => false

/-- IEEE `x <= y`: false whenever either operand is NaN. -/
def pfLe : PyFloat → PyFloat → Bool
| .nan, _ => false
| _, .nan => false
| .ninf, _ => true
| .fin _, .ninf => false
| .fin a, .fin b => decide (a ≤ b)
| .fin _, .inf => true
| .inf, .inf => true
| .inf, _ => false

/-- IEEE `x < y`: false whenever either operand is NaN. -/
def pfLt : PyFloat → PyFloat → Bool
| .nan, _ => false
| _, .nan => false
| .ninf, .ninf => false
| .ninf, _ => true
| .fin _, .ninf => false
| .fin a, .fin b => decide (a < b)
| .fin _, .inf => true
| .inf, _ => false

/-- IEEE subtraction. -/
def pfSub : PyFloat → PyFloat → PyFloat
| .nan, _ => .nan
| _, .nan => .nan
| .fin a, .fin b => .fin (a - b)
| .inf, .inf => .nan
| .inf, _ => .inf
| .ninf, .ninf => .nan
| .ninf, _ => .ninf
| .fin _, .inf => .ninf
| .fin _, .ninf => .inf

/-- IEEE division as numpy performs it (`0/0` is NaN, `x/0` for finite
nonzero `x` is a signed infinity, `inf/inf` is NaN). -/
def pfDiv : PyFloat → PyFloat → PyFloat
| .nan, _ => .nan
| _, .nan => .nan
| .fin a, .fin b =>
    if b = 0 then (if a = 0 then .nan else if 0 < a then .inf else .ninf)
    else .fin (a / b)
| .fin _, .inf => .fin 0
| .fin _, .ninf => .fin 0
| .inf, .inf => .nan
| .inf, .ninf => .nan
| .inf, .fin b => if b < 0 then .ninf else .inf
| .ninf, .inf => .nan
| .ninf, .ninf => .nan
| .ninf, .fin b => if b < 0 then .inf else .ninf

/-- IEEE multiplication (`inf * 0` is NaN). -/
def pfMul : PyFloat → PyFloat → PyFloat
| .nan, _ => .nan
| _, .nan => .nan
| .fin a, .fin b => .fin (a * b)
| .inf, .inf => .inf
| .inf, .ninf => .ninf
| .inf, .fin b => if b = 0 then .nan else if b < 0 then .ninf else .inf
| .ninf, .inf => .ninf
| .ninf, .ninf => .inf
| .ninf, .fin b => if b = 0 then .nan else if b < 0 then .inf else .ninf
| .fin a, .inf => if a = 0 then .nan else if a < 0 then .ninf else .inf
| .fin a, .ninf => if a = 0 then .nan else if a < 0 then .inf else .ninf

/-- Two-argument minimum over non-NaN values (the reduction step used for
the NaN-filtered reduction below). -/
def pfMin2 (a b : PyFloat) : PyFloat := if pfLe a b then a else b

/-- Two-argument maximum over non-NaN values. -/
def pfMax2 (a b : PyFloat) : PyFloat := if pfLe a b then b else a

/-- `np.nanmin`: minimum ignoring NaN entries; NaN when every entry is NaN
(numpy emits a warning and returns NaN in that case). -/
def npNanmin (xs : List PyFloat) : PyFloat :=
  match xs.filter (fun x => !isNaN x) with
  | [] => .nan
  | y :: ys => ys.foldl pfMin2 y

/-- `np.nanmax`: maximum ignoring NaN entries; NaN when every entry is NaN. -/
def npNanmax (xs : List PyFloat) : PyFloat :=
  match xs.filter (fun x => !isNaN x) with
  | [] => .nan
  | y :: ys => ys.foldl pfMax2 y

/-- `np.clip(x, 0, 255)` on a scalar, i.e. `minimum(maximum(x, 0), 255)`:
NaN propagates, the infinities clamp to the corresponding bound. -/
def npClip255 : PyFloat → PyFloat
| .nan => .nan
| .inf => .fin 255
| .ninf => .fin 0
| .fin q => .fin (min 255 (max 0 q))

/-- `.astype(np.uint8)` on a scalar.  A C float-to-unsigned cast truncates
toward zero; after the clip above, reachable finite inputs lie in
`[0, 255]`, where truncation toward zero is `floor`.  The cast of NaN (the
one non-finite value the clip can leave) is undefined behaviour in C;
x86-64 yields 0, which is what this model uses.  No claim below depends on
that value. -/
def astypeUInt8 : PyFloat → Nat
| .fin q => (Int.toNat ⌊q⌋) % 256
| _ => 0

/-- The normalization step of `convert_dicom_to_png` (utils.py lines
82-90): bounds via `nanmin`/`nanmax`, scaling only when both bounds are
finite and `max > min`, otherwise `np.zeros_like`. -/
def normalizePixels (px : List PyFloat) : List PyFloat :=
  if isFiniteF (npNanmin px) && isFiniteF (npNanmax px)
      && pfLt (npNanmin px) (npNanmax px) then
    px.map (fun s =>
      pfMul (pfDiv (pfSub s (npNanmin px)) (pfSub (npNanmax px) (npNanmin px)))
        (.fin 255))
  else
    px.map (fun _ => PyFloat.fin 0)

/-- The full 8-bit pixel pipeline of `convert_dicom_to_png` (utils.py line
92): `np.clip(normalized, 0, 255).astype(np.uint8)`. -/
def convertPixels (px : List PyFloat) : List Nat :=
  (normalizePixels px).map (fun x => astypeUInt8 (npClip255 x))

/-- The scaling rule exactly as the claim states it: `(s - min) / (max -
min) * 255`, clamped to `[0, 255]`, truncated to an integer. -/
def claimedScale (mn mx q : ℚ) : Nat :=
  Int.toNat ⌊min 255 (max 0 ((q - mn) / (mx - mn) * 255))⌋

/-! ## String utilities (Python semantics, over `List Char`) -/

/-- Python `str.strip()` with no argument: drop leading and trailing
whitespace. -/
def trimList (l : List Char) : List Char :=
  ((l.dropWhile Char.isWhitespace).reverse.dropWhile Char.isWhitespace).reverse

/-- Python `str.strip()` lifted to `String`. -/
def strTrim (s : String) : String := String.mk (trimList s.toList)

/-- Python `str.split(sep)` for a one-character separator: splits on every
occurrence, keeping empty pieces (`"".split(",") == [""]`,
`"a,,b".split(",") == ["a", "", "b"]`). -/
def splitOnChar (sep : Char) : List Char → List (List Char)
| [] => [[]]
| c :: rest =>
  let r := splitOnChar sep rest
  if c = sep then [] :: r
  else
    match r with
    | [] => [[c]]
    | g :: gs => (c :: g) :: gs

/--  Value of a single hexadecimal digit, if the character is one. -/
def hexVal? (c : Char) : Option Nat :=
  if '0' ≤ c ∧ c ≤ '9' then some (c.toNat - 48)
  else if 'a' ≤ c ∧ c ≤ 'f' then some (c.toNat - 87)
  else if 'A' ≤ c ∧ c ≤ 'F' then some (c.toNat - 55)
  else none

/-- Remaining digits of a base-16 Python integer literal after at least one
digit has been consumed: each further digit may be preceded by a single
underscore (`int("1_0", 16)` is legal, `"1__0"`, `"1_"` are not). -/
def hexDigitsGo (acc : Nat) : List Char → Option Nat
| [] => some acc
| '_' :: c :: rest =>
  match hexVal? c with
  | some v => hexDigitsGo (acc * 16 + v) rest
  | none => none
| ['_'] => none
| c :: rest =>
  match hexVal? c with
  | some v => hexDigitsGo (acc * 16 + v) rest
  | none => none

/-- Digit run directly after a `0x`/`0X` marker: Python additionally allows
one underscore between the marker and the first digit (`int("0x_10", 16)`). -/
def hexWithMarker : List Char → Option Nat
| [] => none
| '_' :: c :: rest =>
  match hexVal? c with
  | some v => hexDigitsGo v rest
  | none => none
| ['_'] => none
| c :: rest =>
  match hexVal? c with
  | some v => hexDigitsGo v rest
  | none => none

/-- Digit run with no `0x` marker: must start with a digit. -/
def hexNoMarker : List Char → Option Nat
| [] => none
| c :: rest =>
  match hexVal? c with
  | some v => hexDigitsGo v rest
  | none => none

/-- Unsigned part of a base-16 Python integer literal: optional `0x`/`0X`
marker, then digits. -/
def hexBody : List Char → Option Nat
| '0' :: 'x' :: rest => hexWithMarker rest
| '0' :: 'X' :: rest => hexWithMarker rest
| l => hexNoMarker l

/-- Python's `int(s, 16)`: strip whitespace, optional single sign, optional
`0x`/`0X` marker, then hexadecimal digits of arbitrary precision.  `none`
models the `ValueError` Python raises otherwise. -/
def pyIntHex (s : String) : Option Int :=
  match trimList s.toList with
  | '+' :: rest => (hexBody rest).map (fun n => (n : Int))
  | '-' :: rest => (hexBody rest).map (fun n => -(n : Int))
  | l => (hexBody l).map (fun n => (n : Int))

/-! ## Tag parsing (`parse_dicom_tag`, utils.py lines 16-34) -/

/-- `parse_dicom_tag`: strip the whole string, split on `","`, require
exactly two pieces (`if len(parts) != 2` in the source, rendered here as a
match on the two-element list shape), strip each piece, parse each piece
with `int(_, 16)`.  `Except.error` carries the `ValueError` message. -/
def parse_dicom_tag (tag_string : String) : Except String (Int × Int) :=
  match splitOnChar ',' (trimList tag_string.toList) with
  | [gRaw, eRaw] =>
    match pyIntHex (String.mk (trimList gRaw)),
        pyIntHex (String.mk (trimList eRaw)) with
    | some g, some e => .ok (g, e)
    | _, _ =>
      .error ("Invalid hex values in tag: '" ++ String.mk (trimList gRaw)
        ++ "', '" ++ String.mk (trimList eRaw) ++ "'.")
  | _ => .error "Tag string must contain exactly one comma inside parentheses."

/-- Well-formedness condition matching `parse_dicom_tag`'s success: the
stripped input splits on commas into exactly two pieces and both pieces
parse under Python's `int(_, 16)`. -/
def wellFormedTag (s : String) : Bool :=
  match splitOnChar ',' (trimList s.toList) with
  | [gRaw, eRaw] =>
    (pyIntHex (String.mk (trimList gRaw))).isSome
      && (pyIntHex (String.mk (trimList eRaw))).isSome
  | _ => false

/-- Whether an `Except` result is a success. -/
def exOk {ε α : Type} : Except ε α → Bool
| .ok _ => true
| .error _ => false

/-! ## Datasets and elements -/

/-- A DICOM tag as pydicom exposes it: a (group, element) pair.
pydicom's `Tag` constructor guarantees both components fit in 16 bits. -/
structure ElementTag where
  group : Nat
  element : Nat
deriving DecidableEq

/-- The value of a data element as the header synthesizer inspects it:
absent (`None`), a plain string, or an iterable of non-string scalars
(each scalar given by its `str(x)` form, which is opaque to this core). -/
inductive DicomValue
| vNone
| vStr (s : String)
| vItems (xs : List String)
deriving DecidableEq

/-- A data element: its tag, pydicom keyword, value representation code,
and value. -/
structure DsElement where
  tag : ElementTag
  keyword : String
  vr : String
  value : DicomValue
deriving DecidableEq

/-- A parsed dataset (`pydicom.FileDataset`): the primary element table,
the separate file-meta table (`none` when the `file_meta` attribute is
absent), and the decoded pixel grid (`none` when accessing `pixel_array`
raises `AttributeError`, i.e. the dataset has no pixel data). -/
structure Dataset where
  elems : List DsElement
  fileMeta : Option (List DsElement)
  pixelData : Option (List PyFloat)
deriving DecidableEq

/-- `dataset.get(tag)`: look a tag up in an element table. -/
def dsGet (tbl : List DsElement) (t : ElementTag) : Option DsElement :=
  tbl.find? (fun el => el.tag = t)

/-! ## Header synthesis (`dicom_value_to_header`, utils.py lines 57-72) -/

/-- The stringification step of `dicom_value_to_header`: join an iterable
of scalars with `", "`, otherwise `str(value)`. -/
def stringifyValue : DicomValue → String
| .vNone => ""
| .vStr s => s
| .vItems xs => String.intercalate ", " xs

/-- `value.replace("\n", " ").replace("\r", "")` (utils.py line 68). -/
def cleanList (l : List Char) : List Char :=
  (l.map (fun c => if c = '\n' then ' ' else c)).filter (fun c => c ≠ '\r')

/-- `cleanList` lifted to `String`. -/
def cleanHeaderValue (s : String) : String := String.mk (cleanList s.toList)

/-- `dicom_value_to_header`: skip sequence (`SQ`) and absent values,
stringify, strip newlines and carriage returns, and return the stripped
value unless it is empty.  (The source's per-element `except: return None`
guards stringification of exotic pydicom values; stringification in this
model is total, so that handler has no observable branch.) -/
def dicom_value_to_header (el : DsElement) : Option String :=
  if el.vr = "SQ" ∨ el.value = .vNone then none
  else
    let value := cleanHeaderValue (stringifyValue el.value)
    if value ≠ "" ∧ strTrim value ≠ "" then some (strTrim value) else none

/-! ## Tag resolution inside `dicom_upload` (utils.py lines 118-140) -/

/-- Modelled from pydicom (external library): the `Tag(group, elem)`
constructor raises `OverflowError` -- not `ValueError` -- unless both
components lie in `[0, 0xFFFF]`. -/
def pydicomTag (g e : Int) : Except String ElementTag :=
  if 0 ≤ g ∧ g ≤ 0xFFFF ∧ 0 ≤ e ∧ e ≤ 0xFFFF then
    .ok ⟨g.toNat, e.toNat⟩
  else .error "Tag must be between 0x0000 and 0xFFFF."

/-- Tag lookup with the file-meta fallback (utils.py lines 122-129): the
primary table first; on a miss, the file-meta table, but only when the
tag's group is 0x0002, the dataset has a `file_meta` attribute, and that
dataset is truthy (pydicom datasets are falsy when empty). -/
def resolveTag (ds : Dataset) (t : ElementTag) : Option DsElement :=
  match dsGet ds.elems t with
  | some el => some el
  | none =>
    if t.group = 2 then
      match ds.fileMeta with
      | some meta => if meta.isEmpty then none else dsGet meta t
      | none => none
    else none

/-- A FastAPI `HTTPException`: status code and detail message. -/
structure HTTPError where
  status : Nat
  detail : String
deriving DecidableEq

/-- Lowercase hexadecimal digit. -/
def hexChar (n : Nat) : Char :=
  if n < 10 then Char.ofNat (48 + n) else Char.ofNat (87 + n)

/-- pydicom's `str(Tag(g, e))`: `"(gggg, eeee)"` in lowercase hex. -/
def hex4 (n : Nat) : String :=
  String.mk [hexChar (n / 4096 % 16), hexChar (n / 256 % 16),
    hexChar (n / 16 % 16), hexChar (n % 16)]

/-- String form of a tag as pydicom prints it. -/
def tagToString (t : ElementTag) : String :=
  "(" ++ hex4 t.group ++ ", " ++ hex4 t.element ++ ")"

/-- The `tag_data` mapping put into the response (utils.py lines 132-136). -/
structure TagData where
  tag : String
  keyword : String
  vr : String
deriving DecidableEq

/-- The tag-extraction block of `dicom_upload` (utils.py lines 118-144)
with its exception flow made explicit:

* a `ValueError` from `parse_dicom_tag` is caught by `except ValueError`
  and mapped to status 400;
* the `OverflowError` from `Tag(...)` is not a `ValueError`, so it falls
  through to `except Exception` and becomes status 500;
* the `HTTPException(404)` raised for a missing tag is itself an
  `Exception`, so the function's own `except Exception` catches it and
  re-raises it as status 500 (`str(HTTPException)` is
  `"{status}: {detail}"`). -/
def extract_tag (tagStr : String) (ds : Dataset) : Except HTTPError TagData :=
  match parse_dicom_tag tagStr with
  | .error msg => .error ⟨400, "Invalid tag format: " ++ msg⟩
  | .ok (g, e) =>
    match pydicomTag g e with
    | .error msg => .error ⟨500, "Error extracting tag: " ++ msg⟩
    | .ok t =>
      match resolveTag ds t with
      | some el => .ok ⟨tagToString el.tag, el.keyword, el.vr⟩
      | none =>
        .error ⟨500, "Error extracting tag: 404: Tag " ++ tagStr
          ++ " not found in DICOM file"⟩

/-! ## PNG conversion and response assembly (utils.py lines 75-106, 146-183) -/

/-- `convert_dicom_to_png` minus the pixel math (which is `convertPixels`):
the PIL encode step is an external capability, passed in as `encode`; any
failure inside the `try` is re-raised as
`ValueError("Error processing DICOM pixel data: ...")`. -/
def convert_dicom_to_png (encode : List Nat → Except String (List Nat))
    (px : List PyFloat) : Except String (List Nat) :=
  match encode (convertPixels px) with
  | .ok bs => .ok bs
  | .error msg => .error ("Error processing DICOM pixel data: " ++ msg)

/-- The JSON-style response body (`response_data` in main.py lines
95-100). -/
structure ResponseData where
  file_id : Nat
  filename : Option String
  success : Bool
  is_duplicate : Bool
  tag_data : Option TagData
  png_error : Option String
deriving DecidableEq

/-- The two success shapes of `dicom_upload`: a PNG `StreamingResponse`
with headers, or the JSON-style `response_data`. -/
inductive UploadResponse
| image (png : List Nat) (headers : List (String × String))
| json (d : ResponseData)
deriving DecidableEq

/-- Header name for a metadata element (utils.py lines 169-173):
`X-DICOM-<Keyword>` when the keyword is truthy, else
`X-DICOM-<group>-<element>` with decimal components. -/
def headerName (el : DsElement) : String :=
  if el.keyword ≠ "" then "X-DICOM-" ++ el.keyword
  else "X-DICOM-" ++ toString el.tag.group ++ "-" ++ toString el.tag.element

/-- The image response headers (utils.py lines 151-174): the fixed five
entries, then one entry per element of the primary table whose group is in
`{0x0008, 0x0018, 0x0028}` and whose value survives
`dicom_value_to_header`.  (A Python dict would deduplicate repeated header
names last-writer-wins; the claims below do not depend on that.) -/
def image_headers (file_id : Nat) (td : TagData) (ds : Dataset) :
    List (String × String) :=
  [("Content-Disposition", "inline; filename=" ++ toString file_id ++ ".png"),
   ("X-DICOM-ID", toString file_id),
   ("X-Tag", td.tag),
   ("X-Keyword", td.keyword),
   ("X-VR", td.vr)]
  ++ ds.elems.filterMap (fun el =>
      if el.tag.group = 0x0008 ∨ el.tag.group = 0x0018 ∨ el.tag.group = 0x0028
      then (dicom_value_to_header el).map (fun v => (headerName el, v))
      else none)

/-- `dicom_upload` (utils.py lines 109-183): extract the tag (aborting on
its errors), then either stream a PNG, or degrade to the JSON response
with a `png_error` field when the dataset has no pixel grid or conversion
fails. -/
def dicom_upload (encode : List Nat → Except String (List Nat))
    (file_id : Nat) (tag : String) (ds : Dataset)
    (response_data : ResponseData) : Except HTTPError UploadResponse :=
  match extract_tag tag ds with
  | .error e => .error e
  | .ok td =>
    let response_data := { response_data with tag_data := some td }
    match ds.pixelData with
    | none =>
      .ok (.json { response_data with
        png_error := some "DICOM file does not contain image data" })
    | some px =>
      match convert_dicom_to_png encode px with
      | .ok png => .ok (.image png (image_headers file_id td ds))
      | .error msg =>
        .ok (.json { response_data with
          png_error := some ("Error converting to PNG: " ++ msg) })

/-! ## The upload state machine (`process_dicom`, main.py lines 45-107) -/

/-- Durable service state: `FILE_HASH_MAP` (digest to identifier; the
in-memory dict and its JSON copy coincide because every mutation on the
success path is immediately followed by `json.dump`), the uploads
directory (identifier to stored bytes; `get_file_path` names the file
`"{id}.dcm"`, so the identifier keys the store), and the fresh-identifier
supply standing in for `uuid.uuid4()`. -/
structure ServerState where
  hashMap : List (String × Nat)
  files : List (Nat × List Nat)
  counter : Nat
deriving DecidableEq

/-- State at first startup: empty index, empty uploads directory. -/
def emptyState : ServerState := ⟨[], [], 0⟩

/-- First-match association-list lookup (files and Python dicts). -/
def lookupKey {α β : Type} [DecidableEq α] (k : α) : List (α × β) → Option β
| [] => none
| (k', v) :: rest => if k' = k then some v else lookupKey k rest

/-- Python dict update `m[k] = v`: replaces any previous binding of `k`. -/
def dictInsert {α β : Type} [DecidableEq α] (k : α) (v : β)
    (m : List (α × β)) : List (α × β) :=
  (k, v) :: m.filter (fun p => p.1 ≠ k)

/-- `os.unlink(get_file_path(id))`: remove a stored file. -/
def eraseKey {α β : Type} [DecidableEq α] (k : α) (m : List (α × β)) :
    List (α × β) :=
  m.filter (fun p => p.1 ≠ k)

/-- The duplicate probe (main.py lines 62-67): index hit cross-checked
against actual presence of the referenced file; a hit whose file is gone
is treated as a miss. -/
def existingFileId (st : ServerState) (digest : String) : Option Nat :=
  match lookupKey digest st.hashMap with
  | some id => if (lookupKey id st.files).isSome then some id else none
  | none => none

/-- What the storage phase reports back into `response_data`.
`ranValidation` records whether `is_valid_dicom_file` was invoked at all
(duplicates skip it). -/
structure StoreResult where
  fileId : Nat
  isDuplicate : Bool
  ranValidation : Bool
deriving DecidableEq

/-- The storage phase of `process_dicom` (main.py lines 59-91): hash,
dedup probe, and for new content write-validate-record; on validation
failure the just-written file is unlinked and `HTTPException(400)` is
raised (inside the endpoint's own `try`, so the caller will re-wrap it).
`is_valid_dicom_file` and `calculate_file_hash` are parameters: the former
wraps the external decoder and by construction returns a `bool` rather
than raising, the latter is sha256.  The returned state is the state at
the moment the result (or exception) leaves the block. -/
def process_dicom_store (isValid : List Nat → Bool) (hash : List Nat → String)
    (st : ServerState) (content : List Nat) :
    Except HTTPError StoreResult × ServerState :=
  match existingFileId st (hash content) with
  | some id => (.ok ⟨id, true, false⟩, st)
  | none =>
    if isValid content then
      (.ok ⟨st.counter, false, true⟩,
       ⟨dictInsert (hash content) st.counter st.hashMap,
        (st.counter, content) :: st.files, st.counter + 1⟩)
    else
      (.error ⟨400, "The uploaded file is not a valid DICOM file"⟩,
       ⟨st.hashMap, eraseKey st.counter ((st.counter, content) :: st.files),
        st.counter + 1⟩)

/-- The outer `except Exception` handler of `process_dicom` (main.py lines
104-107): `fastapi.HTTPException` derives from `Exception`, so every
exception raised inside the endpoint body -- including the endpoint's own
`HTTPException(400)` and those of `dicom_upload` -- is caught here and
re-raised as status 500. -/
def wrap500 (e : HTTPError) : HTTPError :=
  ⟨500, "Error processing DICOM file: " ++ toString e.status ++ ": " ++ e.detail⟩

/-- The `/dicom/upload` endpoint `process_dicom` (main.py lines 45-107):
storage phase, `pydicom.dcmread` of the stored file (`parseDs`, the
external decoder -- total here because the bytes were validated when first
stored), response-data assembly, `dicom_upload`, and the blanket
`except Exception` re-wrap. -/
def process_dicom (isValid : List Nat → Bool) (hash : List Nat → String)
    (parseDs : List Nat → Dataset)
    (encode : List Nat → Except String (List Nat))
    (st : ServerState) (content : List Nat) (filename tagStr : String) :
    Except HTTPError UploadResponse × ServerState :=
  match process_dicom_store isValid hash st content with
  | (.error e, st') => (.error (wrap500 e), st')
  | (.ok r, st') =>
    let storedBytes := (lookupKey r.fileId st'.files).getD content
    let ds := parseDs storedBytes
    let response_data : ResponseData :=
      ⟨r.fileId, some filename, true, r.isDuplicate, none, none⟩
    match dicom_upload encode r.fileId tagStr ds response_data with
    | .ok resp => (.ok resp, st')
    | .error e => (.error (wrap500 e), st')

/-- Status code of an error outcome, if any. -/
def errStatus {α : Type} : Except HTTPError α → Option Nat
| .error e => some e.status
| .ok _ => none

/-- Invariant of reachable service states: every identifier in the index
and in the uploads directory came from the fresh supply (is below the
counter), the index binds each digest at most once, identifiers in the
index are pairwise distinct, and stored files have pairwise distinct
names. -/
structure Inv (st : ServerState) : Prop where
  mapIdsLt : ∀ p ∈ st.hashMap, p.2 < st.counter
  fileIdsLt : ∀ p ∈ st.files, p.1 < st.counter
  mapKeysNodup : (st.hashMap.map Prod.fst).Nodup
  mapIdsNodup : (st.hashMap.map Prod.snd).Nodup
  fileKeysNodup : (st.files.map Prod.fst).Nodup

/-- The startup state satisfies the invariant. -/
theorem emptyState_inv : Inv emptyState :=
  ⟨by simp [emptyState], by simp [emptyState], by simp [emptyState],
   by simp [emptyState], by simp [emptyState]⟩

/-! ## Concrete fixtures -/

/-- A dataset with empty tables and no pixel data. -/
def emptyDs : Dataset := ⟨[], none, none⟩

/-- A file-meta element with tag (0002, 0003). -/
def metaEl : DsElement :=
  ⟨⟨2, 3⟩, "MediaStorageSOPInstanceUID", "UI", .vStr "1.2.3"⟩

/-- A dataset whose primary table is empty but whose file-meta table holds
`metaEl`. -/
def metaOnlyDs : Dataset := ⟨[], some [metaEl], none⟩

/-! ## Claim theorems -/

/-- C1: the claim says format errors and tag errors abort the request with
a client-facing 4xx-equivalent outcome (400/400/404) distinguishable from
the 500 reserved for server faults.  The code does raise
`HTTPException(400)` for invalid bytes, `HTTPException(400)` for a
malformed tag string and `HTTPException(404)` for a missing tag, but the
endpoint's blanket `except Exception` (main.py lines 104-107) catches its
own `HTTPException`s (they derive from `Exception`) and re-raises all
three as status 500 -- the server-fault outcome.  This theorem evaluates
the endpoint at the three failing inputs: invalid bytes, malformed tag
string `"0010"`, and well-formed tag `"0010,0010"` absent from an empty
dataset; every one ends in status 500, never 400 or 404. -/
theorem C1_client_errors_surface_as_500 :
    errStatus (process_dicom (fun _ => false) (fun b => toString b.length)
      (fun _ => emptyDs) (fun b => .ok b) emptyState [0] "f.dcm"
      "0010,0010").1 = some 500 ∧
    errStatus (process_dicom (fun _ => true) (fun b => toString b.length)
      (fun _ => emptyDs) (fun b => .ok b) emptyState [0] "f.dcm"
      "0010").1 = some 500 ∧
    errStatus (process_dicom (fun _ => true) (fun b => toString b.length)
      (fun _ => emptyDs) (fun b => .ok b) emptyState [0] "f.dcm"
      "0010,0010").1 = some 500 := by
  refine ⟨by decide, by decide, by decide⟩

/-- C2 counterexample: the claim says `parse_tag` parses the components as
16-bit values, rejecting out-of-range hex strings.  Python's `int(s, 16)`
is arbitrary-precision and `parse_dicom_tag` adds no range check, so
`"10000,0010"` -- whose group component needs 17 bits -- parses
successfully to `(0x10000, 0x0010)` instead of failing. -/
theorem C2_counterexample_no_16bit_check :
    parse_dicom_tag "10000,0010" = .ok (65536, 16) ∧ (65535 : Int) < 65536 := by
  refine ⟨by decide, by decide⟩

/-- C2 amended: `parse_dicom_tag` parses both components with Python's
arbitrary-precision `int(_, 16)` and performs no range check of its own
(out-of-range components are rejected only downstream, by the pydicom
`Tag` constructor, with an `OverflowError` that the caller maps to status
500, not to `InvalidTagFormat`); it fails with `ValueError` (mapped to
`InvalidTagFormat`) exactly when the input does not split on commas into
exactly two components that are valid under `int(_, 16)`.
`parse_tag("0010,0010")` yields `(0x0010, 0x0010)`; `"0010"`,
`"zzzz,0010"` and `"0010,0010,0010"` all fail. -/
theorem C2_parse_tag_amended :
    parse_dicom_tag "0010,0010" = .ok (16, 16) ∧
    exOk (parse_dicom_tag "0010") = false ∧
    exOk (parse_dicom_tag "zzzz,0010") = false ∧
    exOk (parse_dicom_tag "0010,0010,0010") = false ∧
    ∀ s : String, exOk (parse_dicom_tag s) = wellFormedTag s := by
  refine ⟨by decide, by decide, by decide, by decide, ?_⟩
  intro s
  rcases hl : splitOnChar ',' (trimList s.data) with - | ⟨gRaw, - | ⟨eRaw, - | ⟨c, rest⟩⟩⟩
  · simp [parse_dicom_tag, wellFormedTag, String.toList, hl, exOk]
  · simp [parse_dicom_tag, wellFormedTag, String.toList, hl, exOk]
  · simp only [parse_dicom_tag, wellFormedTag, String.toList, hl]
    cases pyIntHex (String.mk (trimList gRaw)) <;>
      cases pyIntHex (String.mk (trimList eRaw)) <;> simp [exOk]
  · simp [parse_dicom_tag, wellFormedTag, String.toList, hl, exOk]

/-- C5: the lookup-with-fallback logic itself behaves as claimed -- a
group-0x0002 tag absent from the primary table but present in the
file-meta table resolves via the fallback, and a tag absent from both
resolves to `None` -- but the "yields TagNotFound, not an internal error"
part fails: `dicom_upload` raises `HTTPException(404, "Tag ... not
found")` and its own blanket `except Exception` (utils.py lines 143-144)
immediately catches and re-raises it as status 500, an internal-error
outcome.  Conjuncts: fallback hit; miss on both tables; the full
`dicom_upload` succeeding through the fallback with correct `tag_data`;
and the absent-from-both case ending in 500, not 404. -/
theorem C5_fallback_resolution_and_wrapped_404 :
    resolveTag metaOnlyDs ⟨2, 3⟩ = some metaEl ∧
    resolveTag ⟨[], some [], none⟩ ⟨2, 3⟩ = none ∧
    dicom_upload (fun b => .ok b) 7 "0002,0003" metaOnlyDs
      ⟨7, some "f.dcm", true, false, none, none⟩
      = .ok (.json ⟨7, some "f.dcm", true, false,
          some ⟨"(0002, 0003)", "MediaStorageSOPInstanceUID", "UI"⟩,
          some "DICOM file does not contain image data"⟩) ∧
    errStatus (dicom_upload (fun b => .ok b) 7 "0002,0003"
      ⟨[], some [], none⟩ ⟨7, some "f.dcm", true, false, none, none⟩)
      = some 500 ∧
    errStatus (dicom_upload (fun b => .ok b) 7 "0002,0003"
      ⟨[], some [], none⟩ ⟨7, some "f.dcm", true, false, none, none⟩)
      ≠ some 404 := by
  refine ⟨by decide, by decide, by decide, by decide, by decide⟩

/-! ## Lemmas about header-value cleaning (for C8) -/

/-- Characters surviving `replace("\n", " ").replace("\r", "")` are neither
newlines nor carriage returns. -/
theorem mem_cleanList {c : Char} {l : List Char} (h : c ∈ cleanList l) :
    c ≠ '\n' ∧ c ≠ '\r' := by
  unfold cleanList at h
  rcases List.mem_filter.mp h with ⟨hm, hr⟩
  rcases List.mem_map.mp hm with ⟨a, -, ha⟩
  refine ⟨?_, by simpa using hr⟩
  intro hc
  subst hc
  by_cases h0 : a = '\n' <;> simp [h0] at ha

/-- Stripping only drops characters. -/
theorem mem_trimList {c : Char} {l : List Char} (h : c ∈ trimList l) :
    c ∈ l := by
  unfold trimList at h
  rw [List.mem_reverse] at h
  have h2 := (List.dropWhile_sublist _).mem h
  rw [List.mem_reverse] at h2
  exact (List.dropWhile_sublist _).mem h2

/-- C8: every value emitted by `dicom_value_to_header` is single-line --
it contains no newline and no carriage-return character -- and is
nonempty; the value `"Line1\nLine2"` is rendered as `"Line1 Line2"`; and
an element whose cleaned, stripped value is empty is skipped (returns
`None`) rather than emitted as an empty header. -/
theorem C8_header_values_single_line :
    (∀ (el : DsElement) (v : String), dicom_value_to_header el = some v →
      (∀ c ∈ v.toList, c ≠ '\n' ∧ c ≠ '\r') ∧ v ≠ "") ∧
    dicom_value_to_header
      ⟨⟨16, 16⟩, "PatientName", "PN", .vStr "Line1\nLine2"⟩
      = some "Line1 Line2" ∧
    (∀ el : DsElement,
      strTrim (cleanHeaderValue (stringifyValue el.value)) = "" →
      dicom_value_to_header el = none) := by
  refine ⟨?_, by decide, ?_⟩
  · intro el v hv
    unfold dicom_value_to_header at hv
    by_cases hskip : el.vr = "SQ" ∨ el.value = .vNone
    · simp [hskip] at hv
    · simp only [hskip, if_false] at hv
      by_cases hne : cleanHeaderValue (stringifyValue el.value) ≠ ""
          ∧ strTrim (cleanHeaderValue (stringifyValue el.value)) ≠ ""
      · rw [if_pos hne] at hv
        obtain ⟨-, hts⟩ := hne
        obtain rfl : strTrim (cleanHeaderValue (stringifyValue el.value)) = v :=
          Option.some.inj hv
        refine ⟨?_, hts⟩
        intro c hc
        have hc2 : c ∈ trimList
            ((cleanHeaderValue (stringifyValue el.value)).toList) := hc
        have hc3 := mem_trimList hc2
        exact mem_cleanList
          (by simpa [cleanHeaderValue, String.toList] using hc3)
      · rw [if_neg hne] at hv
        exact absurd hv (by simp)
  · intro el hempty
    unfold dicom_value_to_header
    by_cases hskip : el.vr = "SQ" ∨ el.value = .vNone
    · simp [hskip]
    · simp [hskip, hempty]

/-- Witness for C8: a concrete element whose value `" x\r"` survives as
header value `"x"` -- nonempty and free of newline or carriage-return
characters -- and a concrete element whose value `"\r\r"` cleans and
strips to the empty string and is therefore skipped. -/
theorem C8_header_values_single_line_witness :
    dicom_value_to_header ⟨⟨16, 16⟩, "PatientID", "LO", .vStr " x\r"⟩
      = some "x" ∧
    ((∀ c ∈ ("x" : String).toList, c ≠ '\n' ∧ c ≠ '\r') ∧ ("x" : String) ≠ "") ∧
    strTrim (cleanHeaderValue (stringifyValue (DicomValue.vStr "\r\r"))) = "" ∧
    dicom_value_to_header ⟨⟨16, 16⟩, "PatientID", "LO", .vStr "\r\r"⟩ = none :=
  ⟨by decide,
   C8_header_values_single_line.1 ⟨⟨16, 16⟩, "PatientID", "LO", .vStr " x\r"⟩
     "x" (by decide),
   by decide,
   C8_header_values_single_line.2.2
     ⟨⟨16, 16⟩, "PatientID", "LO", .vStr "\r\r"⟩ (by decide)⟩

/-! ## C9: rendering failure degrades, it does not abort -/

/-- The response shape C9 requires: a successful (`.ok`) non-image JSON
response whose `tag_data` is the resolved tag data and whose `png_error`
field is populated. -/
def degradedResponse (r : Except HTTPError UploadResponse) (td : TagData) :
    Prop :=
  match r with
  | .ok (.json d) => d.tag_data = some td ∧ d.png_error.isSome = true
  | _ => False

/-- A primary-table element with tag (0010, 0010). -/
def patientEl : DsElement := ⟨⟨16, 16⟩, "PatientName", "PN", .vStr "Doe"⟩

/-- C9: whenever the tag extraction succeeds and either the dataset has no
pixel grid or the PNG conversion fails, `dicom_upload` still returns a
successful non-image response whose `tag_data` is the resolved data and
whose `png_error` field is populated -- rendering failure never becomes
upload failure. -/
theorem C9_render_failure_degrades :
    ∀ (encode : List Nat → Except String (List Nat)) (fid : Nat)
      (tagStr : String) (ds : Dataset) (resp : ResponseData) (td : TagData),
    extract_tag tagStr ds = .ok td →
    (ds.pixelData = none ∨
      ∃ px msg, ds.pixelData = some px ∧
        convert_dicom_to_png encode px = .error msg) →
    degradedResponse (dicom_upload encode fid tagStr ds resp) td := by
  intro encode fid tagStr ds resp td hext hpx
  unfold dicom_upload
  rw [hext]
  rcases hpx with hnone | ⟨px, msg, hsome, hconv⟩
  · simp [hnone, degradedResponse]
  · rw [hsome]
    simp [hconv, degradedResponse]

/-- Witness for C9, exercising both hypotheses: a dataset with no pixel
grid, and a dataset whose PNG encoding step fails, both produce the
degraded-but-successful response. -/
theorem C9_render_failure_degrades_witness :
    degradedResponse (dicom_upload (fun b => .ok b) 3 "0010,0010"
      ⟨[patientEl], none, none⟩ ⟨3, some "f.dcm", true, false, none, none⟩)
      ⟨"(0010, 0010)", "PatientName", "PN"⟩ ∧
    degradedResponse (dicom_upload (fun _ => .error "PIL failure") 3
      "0010,0010" ⟨[patientEl], none, some [.fin 0]⟩
      ⟨3, some "f.dcm", true, false, none, none⟩)
      ⟨"(0010, 0010)", "PatientName", "PN"⟩ :=
  ⟨C9_render_failure_degrades (fun b => .ok b) 3 "0010,0010"
     ⟨[patientEl], none, none⟩ ⟨3, some "f.dcm", true, false, none, none⟩
     ⟨"(0010, 0010)", "PatientName", "PN"⟩ (by decide) (Or.inl rfl),
   C9_render_failure_degrades (fun _ => .error "PIL failure") 3 "0010,0010"
     ⟨[patientEl], none, some [.fin 0]⟩
     ⟨3, some "f.dcm", true, false, none, none⟩
     ⟨"(0010, 0010)", "PatientName", "PN"⟩ (by decide)
     (Or.inr ⟨[.fin 0], "Error processing DICOM pixel data: PIL failure",
       rfl, rfl⟩)⟩

/-! ## Association-list lemmas for the state machine -/

theorem lookupKey_dictInsert_self {α β : Type} [DecidableEq α] (k : α) (v : β)
    (m : List (α × β)) : lookupKey k (dictInsert k v m) = some v := by
  simp [dictInsert, lookupKey]

theorem lookupKey_filter_ne {α β : Type} [DecidableEq α] {j k : α}
    (h : j ≠ k) :
    ∀ m : List (α × β),
      lookupKey j (m.filter (fun p => p.1 ≠ k)) = lookupKey j m := by
  intro m
  induction m with
  | nil => rfl
  | cons p rest ih =>
    obtain ⟨a, b⟩ := p
    by_cases hak : a = k
    · rw [List.filter_cons_of_neg (by simp [hak])]
      rw [ih]
      have haj : ¬ a = j := fun hc => h ((hc.symm.trans hak) ▸ rfl)
      simp [lookupKey, haj]
    · rw [List.filter_cons_of_pos (by simp [hak])]
      by_cases haj : a = j
      · simp [lookupKey, haj]
      · simp only [decide_not] at ih
        simp [lookupKey, haj, ih]

theorem lookupKey_dictInsert_ne {α β : Type} [DecidableEq α] {j k : α}
    (h : j ≠ k) (v : β) (m : List (α × β)) :
    lookupKey j (dictInsert k v m) = lookupKey j m := by
  unfold dictInsert
  have hkj : ¬ k = j := fun hc => h hc.symm
  calc lookupKey j ((k, v) :: m.filter (fun p => p.1 ≠ k))
      = lookupKey j (m.filter (fun p => p.1 ≠ k)) := by simp [lookupKey, hkj]
    _ = lookupKey j m := lookupKey_filter_ne h m

theorem lookupKey_mem {α β : Type} [DecidableEq α] {k : α} {v : β} :
    ∀ {m : List (α × β)}, lookupKey k m = some v → (k, v) ∈ m := by
  intro m
  induction m with
  | nil => intro h; cases h
  | cons p rest ih =>
    obtain ⟨a, b⟩ := p
    intro h
    unfold lookupKey at h
    by_cases hak : a = k
    · rw [if_pos hak] at h
      obtain rfl := Option.some.inj h
      subst hak
      exact List.mem_cons_self _ _
    · rw [if_neg hak] at h
      exact List.mem_cons_of_mem _ (ih h)

theorem existingFileId_lookup {st : ServerState} {d : String} {i : Nat}
    (h : existingFileId st d = some i) : lookupKey d st.hashMap = some i := by
  rcases hl : lookupKey d st.hashMap with - | j
  · simp only [existingFileId, hl] at h
    exact h
  · simp only [existingFileId, hl] at h
    by_cases hf : (lookupKey j st.files).isSome = true
    · rw [if_pos hf] at h
      exact h
    · rw [if_neg hf] at h
      simp at h

/-- The reachable-state invariant is preserved by the storage phase,
whichever way it exits. -/
theorem process_dicom_store_inv (isValid : List Nat → Bool)
    (hashF : List Nat → String) (st : ServerState) (content : List Nat)
    (hInv : Inv st) :
    Inv (process_dicom_store isValid hashF st content).2 := by
  unfold process_dicom_store
  cases hE : existingFileId st (hashF content) with
  | some id => exact hInv
  | none =>
    by_cases hv : isValid content = true
    · simp only [hv, if_true, dictInsert]
      refine ⟨?_, ?_, ?_, ?_, ?_⟩
      · intro p hp
        rcases List.mem_cons.mp hp with rfl | hp'
        · exact Nat.lt_succ_self _
        · exact Nat.lt_succ_of_lt (hInv.mapIdsLt p (List.mem_filter.mp hp').1)
      · intro p hp
        rcases List.mem_cons.mp hp with rfl | hp'
        · exact Nat.lt_succ_self _
        · exact Nat.lt_succ_of_lt (hInv.fileIdsLt p hp')
      · rw [List.map_cons]
        refine List.Nodup.cons ?_ (hInv.mapKeysNodup.sublist
          ((List.filter_sublist _).map _))
        intro hmem
        rcases List.mem_map.mp hmem with ⟨p, hp, hfst⟩
        have := (List.mem_filter.mp hp).2
        simp [hfst] at this
      · rw [List.map_cons]
        refine List.Nodup.cons ?_ (hInv.mapIdsNodup.sublist
          ((List.filter_sublist _).map _))
        intro hmem
        rcases List.mem_map.mp hmem with ⟨p, hp, hsnd⟩
        have hlt := hInv.mapIdsLt p (List.mem_filter.mp hp).1
        rw [hsnd] at hlt
        exact Nat.lt_irrefl _ hlt
      · rw [List.map_cons]
        refine List.Nodup.cons ?_ hInv.fileKeysNodup
        intro hmem
        rcases List.mem_map.mp hmem with ⟨p, hp, hfst⟩
        have hlt := hInv.fileIdsLt p hp
        rw [hfst] at hlt
        exact Nat.lt_irrefl _ hlt
    · simp only [hv, if_false, Bool.false_eq_true, eraseKey]
      refine ⟨?_, ?_, hInv.mapKeysNodup, hInv.mapIdsNodup, ?_⟩
      · intro p hp
        exact Nat.lt_succ_of_lt (hInv.mapIdsLt p hp)
      · intro p hp
        have hp' := List.mem_filter.mp hp
        rcases List.mem_cons.mp hp'.1 with rfl | hp''
        · exact Nat.lt_succ_self _
        · exact Nat.lt_succ_of_lt (hInv.fileIdsLt p hp'')
      · have hbig : (List.map Prod.fst
            ((st.counter, content) :: st.files)).Nodup := by
          rw [List.map_cons]
          refine List.Nodup.cons ?_ hInv.fileKeysNodup
          intro hmem
          rcases List.mem_map.mp hmem with ⟨p, hp, hfst⟩
          have hlt := hInv.fileIdsLt p hp
          rw [hfst] at hlt
          exact Nat.lt_irrefl _ hlt
        exact hbig.sublist ((List.filter_sublist _).map _)

/-! ## C6: deduplication by content -/

/-- C6: first part -- uploading the same byte buffer twice (the stored file
is still present, since nothing removes it between the calls) returns the
same identifier both times, reports `is_duplicate = true` on the second
call, and skips re-validation on the second call.  Second part -- two
uploads whose contents hash differently (sha256 collision-freedom is the
spec's own assumption for distinct buffers) never return the same
identifier, from any reachable state. -/
theorem C6_duplicate_same_id_distinct_ids :
    (∀ (isValid : List Nat → Bool) (hashF : List Nat → String)
       (st st1 st2 : ServerState) (b : List Nat) (o1 o2 : StoreResult),
      process_dicom_store isValid hashF st b = (.ok o1, st1) →
      process_dicom_store isValid hashF st1 b = (.ok o2, st2) →
      o2.fileId = o1.fileId ∧ o2.isDuplicate = true
        ∧ o2.ranValidation = false) ∧
    (∀ (isValid : List Nat → Bool) (hashF : List Nat → String)
       (st st1 st2 : ServerState) (b b' : List Nat) (o1 o2 : StoreResult),
      Inv st → hashF b ≠ hashF b' →
      process_dicom_store isValid hashF st b = (.ok o1, st1) →
      process_dicom_store isValid hashF st1 b' = (.ok o2, st2) →
      o1.fileId ≠ o2.fileId) := by
  constructor
  · intro iv hashF st st1 st2 b o1 o2 h1 h2
    unfold process_dicom_store at h1 h2
    cases hE : existingFileId st (hashF b) with
    | some id =>
      simp only [hE] at h1
      obtain ⟨rfl, rfl⟩ := h1
      simp only [hE] at h2
      obtain ⟨rfl, rfl⟩ := h2
      exact ⟨rfl, rfl, rfl⟩
    | none =>
      simp only [hE] at h1
      cases hv : iv b with
      | false => simp [hv] at h1
      | true =>
        simp only [hv, if_true] at h1
        obtain ⟨rfl, rfl⟩ := h1
        have hE2 : existingFileId
            ⟨dictInsert (hashF b) st.counter st.hashMap,
             (st.counter, b) :: st.files, st.counter + 1⟩ (hashF b)
            = some st.counter := by
          simp [existingFileId, lookupKey_dictInsert_self, lookupKey]
        simp only [hE2] at h2
        obtain ⟨rfl, rfl⟩ := h2
        exact ⟨rfl, rfl, rfl⟩
  · intro iv hashF st st1 st2 b b' o1 o2 hInv hne h1 h2
    unfold process_dicom_store at h1 h2
    cases hE1 : existingFileId st (hashF b) with
    | some i1 =>
      simp only [hE1] at h1
      obtain ⟨rfl, rfl⟩ := h1
      have hmem1 := lookupKey_mem (existingFileId_lookup hE1)
      cases hE2 : existingFileId st (hashF b') with
      | some i2 =>
        simp only [hE2] at h2
        obtain ⟨rfl, rfl⟩ := h2
        have hmem2 := lookupKey_mem (existingFileId_lookup hE2)
        intro heq
        have : (hashF b, i1) = (hashF b', i2) :=
          List.inj_on_of_nodup_map hInv.mapIdsNodup hmem1 hmem2 heq
        exact hne (congrArg Prod.fst this)
      | none =>
        simp only [hE2] at h2
        cases hv' : iv b' with
        | false => simp [hv'] at h2
        | true =>
          simp only [hv', if_true] at h2
          obtain ⟨rfl, rfl⟩ := h2
          have : i1 < st.counter := hInv.mapIdsLt _ hmem1
          exact Nat.ne_of_lt this
    | none =>
      simp only [hE1] at h1
      cases hv : iv b with
      | false => simp [hv] at h1
      | true =>
        simp only [hv, if_true] at h1
        obtain ⟨rfl, rfl⟩ := h1
        cases hE2 : existingFileId
            ⟨dictInsert (hashF b) st.counter st.hashMap,
             (st.counter, b) :: st.files, st.counter + 1⟩ (hashF b') with
        | some i2 =>
          simp only [hE2] at h2
          obtain ⟨rfl, rfl⟩ := h2
          have hlk2 : lookupKey (hashF b')
              (dictInsert (hashF b) st.counter st.hashMap) = some i2 :=
            existingFileId_lookup hE2
          rw [lookupKey_dictInsert_ne (fun hc => hne hc.symm)] at hlk2
          have : i2 < st.counter := hInv.mapIdsLt _ (lookupKey_mem hlk2)
          exact (Nat.ne_of_lt this).symm
        | none =>
          simp only [hE2] at h2
          cases hv' : iv b' with
          | false => simp [hv'] at h2
          | true =>
            simp only [hv', if_true] at h2
            obtain ⟨rfl, rfl⟩ := h2
            exact Nat.ne_of_lt (Nat.lt_succ_self _)

/-- Hash function used by the state-machine witnesses: injective on the
byte buffers they exercise. -/
def wHash (b : List Nat) : String := if b = [0] then "h0" else "h1"

/-- The state after a first successful upload of `[0]` under `wHash`. -/
def wSt1 : ServerState := ⟨[("h0", 0)], [(0, [0])], 1⟩

/-- The state after a further successful upload of `[1]` under `wHash`. -/
def wSt2 : ServerState := ⟨[("h1", 1), ("h0", 0)], [(1, [1]), (0, [0])], 2⟩

/-- Witness for C6: a concrete run from the startup state -- upload `[0]`,
upload `[0]` again (same identifier 0, duplicate, validation skipped),
then upload `[1]` (fresh identifier 1, distinct from 0). -/
theorem C6_duplicate_same_id_distinct_ids_witness :
    process_dicom_store (fun _ => true) wHash emptyState [0]
      = (.ok ⟨0, false, true⟩, wSt1) ∧
    process_dicom_store (fun _ => true) wHash wSt1 [0]
      = (.ok ⟨0, true, false⟩, wSt1) ∧
    ((⟨0, true, false⟩ : StoreResult).fileId
        = (⟨0, false, true⟩ : StoreResult).fileId ∧
      (⟨0, true, false⟩ : StoreResult).isDuplicate = true ∧
      (⟨0, true, false⟩ : StoreResult).ranValidation = false) ∧
    process_dicom_store (fun _ => true) wHash wSt1 [1]
      = (.ok ⟨1, false, true⟩, wSt2) ∧
    (⟨0, false, true⟩ : StoreResult).fileId
      ≠ (⟨1, false, true⟩ : StoreResult).fileId :=
  ⟨by decide, by decide,
   C6_duplicate_same_id_distinct_ids.1 (fun _ => true) wHash emptyState wSt1
     wSt1 [0] ⟨0, false, true⟩ ⟨0, true, false⟩ (by decide) (by decide),
   by decide,
   C6_duplicate_same_id_distinct_ids.2 (fun _ => true) wHash emptyState wSt1
     wSt2 [0] [1] ⟨0, false, true⟩ ⟨1, false, true⟩ emptyState_inv
     (by decide) (by decide) (by decide)⟩

/-! ## C7: stale index entries -/

/-- C7: when the dedup index maps the digest to an identifier whose file
no longer exists in storage, the upload proceeds as new: the result is a
fresh identifier (distinct from the stale one and from every stored file),
`is_duplicate = false`, the bytes are stored and validated, and the stale
digest binding is overwritten to the fresh identifier. -/
theorem C7_stale_entry_treated_as_new :
    ∀ (isValid : List Nat → Bool) (hashF : List Nat → String)
      (st : ServerState) (b : List Nat) (i : Nat),
    Inv st →
    lookupKey (hashF b) st.hashMap = some i →
    lookupKey i st.files = none →
    isValid b = true →
    process_dicom_store isValid hashF st b
      = (.ok ⟨st.counter, false, true⟩,
         ⟨dictInsert (hashF b) st.counter st.hashMap,
          (st.counter, b) :: st.files, st.counter + 1⟩) ∧
    lookupKey (hashF b) (dictInsert (hashF b) st.counter st.hashMap)
      = some st.counter ∧
    st.counter ≠ i ∧
    st.counter ∉ st.files.map Prod.fst := by
  intro iv hashF st b i hInv hlk hfile hv
  have hE : existingFileId st (hashF b) = none := by
    simp [existingFileId, hlk, hfile]
  refine ⟨?_, lookupKey_dictInsert_self _ _ _, ?_, ?_⟩
  · unfold process_dicom_store
    rw [hE]
    simp [hv]
  · have : i < st.counter := hInv.mapIdsLt _ (lookupKey_mem hlk)
    exact (Nat.ne_of_lt this).symm
  · intro hmem
    rcases List.mem_map.mp hmem with ⟨p, hp, hfst⟩
    have hlt := hInv.fileIdsLt p hp
    rw [hfst] at hlt
    exact Nat.lt_irrefl _ hlt

/-- A state holding a stale index entry: digest `"h0"` maps to identifier
5, but no file with identifier 5 exists. -/
def staleSt : ServerState := ⟨[("h0", 5)], [], 6⟩

/-- The stale state satisfies the reachable-state invariant. -/
theorem staleSt_inv : Inv staleSt :=
  ⟨by simp [staleSt], by simp [staleSt], by simp [staleSt],
   by simp [staleSt], by simp [staleSt]⟩

/-- Witness for C7: uploading `[0]` (digest `"h0"`) against `staleSt`
stores it under the fresh identifier 6 and overwrites the stale binding
`"h0" -> 5`. -/
theorem C7_stale_entry_treated_as_new_witness :
    process_dicom_store (fun _ => true) wHash staleSt [0]
      = (.ok ⟨6, false, true⟩,
         ⟨[("h0", 6)], [(6, [0])], 7⟩) ∧
    lookupKey "h0" (dictInsert "h0" 6 [("h0", 5)]) = some 6 ∧
    (6 : Nat) ≠ 5 ∧
    (6 : Nat) ∉ ([] : List (Nat × List Nat)).map Prod.fst := by
  have h := C7_stale_entry_treated_as_new (fun _ => true) wHash staleSt [0] 5
    staleSt_inv (by decide) (by decide) (by decide)
  refine ⟨?_, ?_, h.2.2.1, ?_⟩
  · have h1 := h.1
    rw [h1]
    decide
  · have h2 := h.2.1
    simpa [staleSt, wHash] using h2
  · simp

/-! ## C10: failed validation leaves no durable state -/

/-- C10: when an upload misses the dedup index (or hits a stale entry, so
`existingFileId` is `none`) and the bytes fail format validation, the
request raises and leaves both durable stores exactly as they were: the
freshly written file is unlinked, and the digest-to-identifier index is
untouched (it is only written after validation succeeds).  Only the
identifier supply advances, since `uuid.uuid4()` was consumed. -/
theorem C10_failed_validation_is_atomic :
    ∀ (isValid : List Nat → Bool) (hashF : List Nat → String)
      (st : ServerState) (b : List Nat),
    Inv st →
    existingFileId st (hashF b) = none →
    isValid b = false →
    process_dicom_store isValid hashF st b
      = (.error ⟨400, "The uploaded file is not a valid DICOM file"⟩,
         ⟨st.hashMap, st.files, st.counter + 1⟩) := by
  intro iv hashF st b hInv hE hv
  unfold process_dicom_store
  rw [hE]
  have hfiles : eraseKey st.counter ((st.counter, b) :: st.files)
      = st.files := by
    unfold eraseKey
    rw [List.filter_cons_of_neg (by simp)]
    refine List.filter_eq_self.mpr ?_
    intro p hp
    have hlt := hInv.fileIdsLt p hp
    simpa using Nat.ne_of_lt hlt
  simp [hv, hfiles]

/-- Witness for C10: an invalid upload of `[1]` against the
post-first-upload state `wSt1` errors out and leaves the index and the
stored files of `wSt1` unchanged. -/
theorem C10_failed_validation_is_atomic_witness :
    existingFileId wSt1 (wHash [1]) = none ∧
    process_dicom_store (fun _ => false) wHash wSt1 [1]
      = (.error ⟨400, "The uploaded file is not a valid DICOM file"⟩,
         ⟨wSt1.hashMap, wSt1.files, wSt1.counter + 1⟩) := by
  have hInv : Inv wSt1 :=
    ⟨by simp [wSt1], by simp [wSt1], by simp [wSt1], by simp [wSt1],
     by simp [wSt1]⟩
  exact ⟨by decide,
    C10_failed_validation_is_atomic (fun _ => false) wHash wSt1 [1] hInv
      (by decide) (by decide)⟩

/-! ## Pixel-pipeline lemmas (for C3 and C4) -/

/-- `pfMax2` of two non-NaN values is one of them, hence non-NaN. -/
theorem pfMax2_nonnan {a b : PyFloat} (ha : isNaN a = false)
    (hb : isNaN b = false) : isNaN (pfMax2 a b) = false := by
  unfold pfMax2
  by_cases h : pfLe a b = true <;> simp [h, ha, hb]

/-- `pfMin2` of two non-NaN values is one of them, hence non-NaN. -/
theorem pfMin2_nonnan {a b : PyFloat} (ha : isNaN a = false)
    (hb : isNaN b = false) : isNaN (pfMin2 a b) = false := by
  unfold pfMin2
  by_cases h : pfLe a b = true <;> simp [h, ha, hb]

/-- Every non-NaN value is at most `inf`. -/
theorem pfLe_inf_right {a : PyFloat} (ha : isNaN a = false) :
    pfLe a .inf = true := by
  cases a <;> simp [pfLe, isNaN] at ha ⊢

/-- `ninf` is at most every non-NaN value. -/
theorem pfLe_ninf_left {a : PyFloat} (ha : isNaN a = false) :
    pfLe .ninf a = true := by
  cases a <;> simp [pfLe, isNaN] at ha ⊢

/-- `inf` absorbs `pfMax2` on the left against non-NaN values. -/
theorem pfMax2_inf_left {b : PyFloat} (hb : isNaN b = false) :
    pfMax2 .inf b = .inf := by
  cases b <;> simp [pfMax2, pfLe] at hb ⊢

/-- `inf` absorbs `pfMax2` on the right against non-NaN values. -/
theorem pfMax2_inf_right {a : PyFloat} (ha : isNaN a = false) :
    pfMax2 a .inf = .inf := by
  unfold pfMax2
  rw [pfLe_inf_right ha]
  simp

/-- `ninf` absorbs `pfMin2` on the left against non-NaN values. -/
theorem pfMin2_ninf_left {b : PyFloat} (hb : isNaN b = false) :
    pfMin2 .ninf b = .ninf := by
  unfold pfMin2
  rw [pfLe_ninf_left hb]
  simp

/-- `ninf` absorbs `pfMin2` on the right against non-NaN values. -/
theorem pfMin2_ninf_right {a : PyFloat} (ha : isNaN a = false) :
    pfMin2 a .ninf = .ninf := by
  cases a <;> simp [pfMin2, pfLe] at ha ⊢

/-- Folding `pfMax2` over non-NaN values containing `inf` yields `inf`. -/
theorem foldl_pfMax2_inf :
    ∀ (l : List PyFloat) (a : PyFloat), isNaN a = false →
      (∀ x ∈ l, isNaN x = false) → (a = .inf ∨ .inf ∈ l) →
      l.foldl pfMax2 a = .inf := by
  intro l
  induction l with
  | nil =>
    intro a _ _ h
    rcases h with rfl | h
    · rfl
    · cases h
  | cons b t ih =>
    intro a ha hmem h
    have hb : isNaN b = false := hmem b (List.mem_cons_self _ _)
    have ht : ∀ x ∈ t, isNaN x = false :=
      fun x hx => hmem x (List.mem_cons_of_mem _ hx)
    rw [List.foldl_cons]
    rcases h with rfl | hbt
    · exact ih (pfMax2 .inf b) (pfMax2_nonnan ha hb)
        ht (Or.inl (pfMax2_inf_left hb))
    · rcases List.mem_cons.mp hbt with rfl | hin
      · exact ih (pfMax2 a .inf) (pfMax2_nonnan ha hb)
          ht (Or.inl (pfMax2_inf_right ha))
      · exact ih (pfMax2 a b) (pfMax2_nonnan ha hb) ht (Or.inr hin)

/-- Folding `pfMin2` over non-NaN values containing `ninf` yields `ninf`. -/
theorem foldl_pfMin2_ninf :
    ∀ (l : List PyFloat) (a : PyFloat), isNaN a = false →
      (∀ x ∈ l, isNaN x = false) → (a = .ninf ∨ .ninf ∈ l) →
      l.foldl pfMin2 a = .ninf := by
  intro l
  induction l with
  | nil =>
    intro a _ _ h
    rcases h with rfl | h
    · rfl
    · cases h
  | cons b t ih =>
    intro a ha hmem h
    have hb : isNaN b = false := hmem b (List.mem_cons_self _ _)
    have ht : ∀ x ∈ t, isNaN x = false :=
      fun x hx => hmem x (List.mem_cons_of_mem _ hx)
    rw [List.foldl_cons]
    rcases h with rfl | hbt
    · exact ih (pfMin2 .ninf b) (pfMin2_nonnan ha hb)
        ht (Or.inl (pfMin2_ninf_left hb))
    · rcases List.mem_cons.mp hbt with rfl | hin
      · exact ih (pfMin2 a .ninf) (pfMin2_nonnan ha hb)
          ht (Or.inl (pfMin2_ninf_right ha))
      · exact ih (pfMin2 a b) (pfMin2_nonnan ha hb) ht (Or.inr hin)

/-- A grid containing `inf` has `nanmax = inf`: `np.nanmax` ignores NaN
but not infinity. -/
theorem npNanmax_eq_inf {px : List PyFloat} (h : PyFloat.inf ∈ px) :
    npNanmax px = .inf := by
  have hmem : PyFloat.inf ∈ px.filter (fun x => !isNaN x) :=
    List.mem_filter.mpr ⟨h, by simp [isNaN]⟩
  unfold npNanmax
  rcases hf : px.filter (fun x => !isNaN x) with - | ⟨y, ys⟩
  · rw [hf] at hmem
    cases hmem
  · rw [hf] at hmem
    have hyn : isNaN y = false := by
      have hy : y ∈ px.filter (fun x => !isNaN x) := by
        rw [hf]; exact List.mem_cons_self _ _
      simpa using (List.mem_filter.mp hy).2
    have hysn : ∀ x ∈ ys, isNaN x = false := by
      intro x hx
      have hx' : x ∈ px.filter (fun x => !isNaN x) := by
        rw [hf]; exact List.mem_cons_of_mem _ hx
      simpa using (List.mem_filter.mp hx').2
    rcases List.mem_cons.mp hmem with rfl | hys
    · exact foldl_pfMax2_inf ys _ hyn hysn (Or.inl rfl)
    · exact foldl_pfMax2_inf ys y hyn hysn (Or.inr hys)

/-- A grid containing `ninf` has `nanmin = ninf`. -/
theorem npNanmin_eq_ninf {px : List PyFloat} (h : PyFloat.ninf ∈ px) :
    npNanmin px = .ninf := by
  have hmem : PyFloat.ninf ∈ px.filter (fun x => !isNaN x) :=
    List.mem_filter.mpr ⟨h, by simp [isNaN]⟩
  unfold npNanmin
  rcases hf : px.filter (fun x => !isNaN x) with - | ⟨y, ys⟩
  · rw [hf] at hmem
    cases hmem
  · rw [hf] at hmem
    have hyn : isNaN y = false := by
      have hy : y ∈ px.filter (fun x => !isNaN x) := by
        rw [hf]; exact List.mem_cons_self _ _
      simpa using (List.mem_filter.mp hy).2
    have hysn : ∀ x ∈ ys, isNaN x = false := by
      intro x hx
      have hx' : x ∈ px.filter (fun x => !isNaN x) := by
        rw [hf]; exact List.mem_cons_of_mem _ hx
      simpa using (List.mem_filter.mp hx').2
    rcases List.mem_cons.mp hmem with rfl | hys
    · exact foldl_pfMin2_ninf ys _ hyn hysn (Or.inl rfl)
    · exact foldl_pfMin2_ninf ys y hyn hysn (Or.inr hys)

/-- Whenever the guard of the normalization step is false, the whole
pipeline emits the all-zero grid of the input's length. -/
theorem convertPixels_zeros {px : List PyFloat}
    (hguard : (isFiniteF (npNanmin px) && isFiniteF (npNanmax px)
      && pfLt (npNanmin px) (npNanmax px)) = false) :
    convertPixels px = List.replicate px.length 0 := by
  unfold convertPixels normalizePixels
  rw [if_neg (by rw [hguard]; exact Bool.false_ne_true)]
  rw [List.map_map]
  have hfun : ((fun x => astypeUInt8 (npClip255 x))
      ∘ (fun _ : PyFloat => PyFloat.fin 0)) = fun _ => (0 : Nat) := by
    funext x
    show astypeUInt8 (npClip255 (PyFloat.fin 0)) = 0
    norm_num [npClip255, astypeUInt8]
  rw [hfun, List.map_const']

/-- Folding `pfMin2` over copies of `a` starting from `a` stays at `a`. -/
theorem foldl_pfMin2_self (a : PyFloat) :
    ∀ n, (List.replicate n a).foldl pfMin2 a = a := by
  intro n
  induction n with
  | zero => rfl
  | succ n ih =>
    rw [List.replicate_succ, List.foldl_cons,
      show pfMin2 a a = a from ite_self a]
    exact ih

/-- Folding `pfMax2` over copies of `a` starting from `a` stays at `a`. -/
theorem foldl_pfMax2_self (a : PyFloat) :
    ∀ n, (List.replicate n a).foldl pfMax2 a = a := by
  intro n
  induction n with
  | zero => rfl
  | succ n ih =>
    rw [List.replicate_succ, List.foldl_cons,
      show pfMax2 a a = a from ite_self a]
    exact ih

/-- `nanmin` of a constant finite grid is that constant. -/
theorem npNanmin_replicate (n : ℕ) (q : ℚ) :
    npNanmin (List.replicate (n + 1) (PyFloat.fin q)) = .fin q := by
  unfold npNanmin
  rw [List.filter_eq_self.mpr
    (fun x hx => by rw [List.eq_of_mem_replicate hx]; simp [isNaN])]
  rw [List.replicate_succ]
  show (List.replicate n (PyFloat.fin q)).foldl pfMin2 (.fin q) = .fin q
  exact foldl_pfMin2_self _ n

/-- `nanmax` of a constant finite grid is that constant. -/
theorem npNanmax_replicate (n : ℕ) (q : ℚ) :
    npNanmax (List.replicate (n + 1) (PyFloat.fin q)) = .fin q := by
  unfold npNanmax
  rw [List.filter_eq_self.mpr
    (fun x hx => by rw [List.eq_of_mem_replicate hx]; simp [isNaN])]
  rw [List.replicate_succ]
  show (List.replicate n (PyFloat.fin q)).foldl pfMax2 (.fin q) = .fin q
  exact foldl_pfMax2_self _ n

/-- For samples inside the range, the clamp of the claimed scale formula
is a no-op. -/
theorem claimedScale_eval (mn mx q : ℚ) (h1 : mn ≤ q) (h2 : q ≤ mx)
    (hlt : mn < mx) :
    claimedScale mn mx q = Int.toNat ⌊(q - mn) / (mx - mn) * 255⌋ := by
  unfold claimedScale
  have hd : 0 < mx - mn := by linarith
  have h0 : 0 ≤ (q - mn) / (mx - mn) * 255 :=
    mul_nonneg (div_nonneg (by linarith) (le_of_lt hd)) (by norm_num)
  have h255 : (q - mn) / (mx - mn) * 255 ≤ 255 := by
    have hle1 : (q - mn) / (mx - mn) ≤ 1 := by
      rw [div_le_one hd]
      linarith
    calc (q - mn) / (mx - mn) * 255 ≤ 1 * 255 :=
          mul_le_mul_of_nonneg_right hle1 (by norm_num)
      _ = 255 := by norm_num
  rw [max_eq_right h0, min_eq_right h255]

/-! ## C3: corrected -- NaN is ignored by the bounds, infinity is not -/

/-- C3 counterexample: the claim says the min and max used for
normalization are computed over the finite values only, ignoring
non-finite values (NaN and Inf).  On the grid `[0, 100, inf]` the code's
`np.nanmax` returns `inf`, not the finite-only maximum `100`; the
normalization therefore takes the all-zero fallback and outputs
`[0, 0, 0]`, whereas scaling with finite-only bounds `0/100` would map the
sample `100` to `255`. -/
theorem C3_counterexample_inf_not_ignored :
    npNanmax [PyFloat.fin 0, PyFloat.fin 100, PyFloat.inf] = PyFloat.inf ∧
    npNanmax ([PyFloat.fin 0, PyFloat.fin 100, PyFloat.inf].filter
      (fun x => isFiniteF x)) = PyFloat.fin 100 ∧
    PyFloat.inf ≠ PyFloat.fin 100 ∧
    convertPixels [PyFloat.fin 0, PyFloat.fin 100, PyFloat.inf]
      = [0, 0, 0] ∧
    claimedScale 0 100 100 = 255 := by
  refine ⟨by decide, by decide, by decide, by decide, ?_⟩
  rw [claimedScale_eval 0 100 100 (by norm_num) (by norm_num) (by norm_num)]
  norm_num
  decide

/-- C3 amended: the bounds ignore NaN samples only -- prepending a NaN
never changes `nanmin`/`nanmax` -- while an `inf` (or `-inf`) sample makes
the corresponding bound non-finite; whenever the bounds are not both
finite the pipeline falls back to the all-zero grid of the same length (in
particular whenever the grid contains an infinity), and the 8-bit output
never contains NaN: every output sample is an integer below 256. -/
theorem C3_bounds_ignore_nan_only :
    (∀ px : List PyFloat,
      npNanmin (.nan :: px) = npNanmin px
        ∧ npNanmax (.nan :: px) = npNanmax px) ∧
    (∀ px : List PyFloat,
      ¬ (isFiniteF (npNanmin px) = true ∧ isFiniteF (npNanmax px) = true) →
      convertPixels px = List.replicate px.length 0) ∧
    (∀ px : List PyFloat, (PyFloat.inf ∈ px ∨ PyFloat.ninf ∈ px) →
      convertPixels px = List.replicate px.length 0) ∧
    (∀ px : List PyFloat, ∀ y ∈ convertPixels px, y < 256) := by
  refine ⟨?_, ?_, ?_, ?_⟩
  · intro px
    constructor
    · unfold npNanmin
      rw [List.filter_cons_of_neg (by simp [isNaN])]
    · unfold npNanmax
      rw [List.filter_cons_of_neg (by simp [isNaN])]
  · intro px h
    apply convertPixels_zeros
    cases hmn : isFiniteF (npNanmin px) with
    | false => simp [hmn]
    | true =>
      cases hmx : isFiniteF (npNanmax px) with
      | false => simp [hmx]
      | true => exact absurd ⟨hmn, hmx⟩ h
  · intro px h
    apply convertPixels_zeros
    rcases h with hinf | hninf
    · rw [npNanmax_eq_inf hinf]
      simp [isFiniteF]
    · rw [npNanmin_eq_ninf hninf]
      simp [isFiniteF]
  · intro px y hy
    unfold convertPixels at hy
    rcases List.mem_map.mp hy with ⟨x, -, rfl⟩
    cases hc : npClip255 x
    case fin q =>
      simp only [astypeUInt8]
      exact Nat.mod_lt _ (by norm_num)
    all_goals simp [astypeUInt8]

/-- Witness for C3: the all-NaN grid `[nan]` has non-finite bounds and
renders to `[0]`; the grid `[0, inf]` contains an infinity and renders to
`[0, 0]`; and `255 < 256` bounds a concrete output sample. -/
theorem C3_bounds_ignore_nan_only_witness :
    (¬ (isFiniteF (npNanmin [PyFloat.nan]) = true
        ∧ isFiniteF (npNanmax [PyFloat.nan]) = true)) ∧
    convertPixels [PyFloat.nan] = List.replicate 1 0 ∧
    convertPixels [PyFloat.fin 0, PyFloat.inf] = List.replicate 2 0 ∧
    npNanmin (.nan :: [PyFloat.fin 7]) = npNanmin [PyFloat.fin 7] :=
  ⟨by decide,
   C3_bounds_ignore_nan_only.2.1 [PyFloat.nan] (by decide),
   C3_bounds_ignore_nan_only.2.2.1 [PyFloat.fin 0, PyFloat.inf]
     (Or.inl (by simp)),
   (C3_bounds_ignore_nan_only.1 [PyFloat.fin 7]).1⟩

/-! ## C4: the scaling formula, order preservation, degenerate ranges -/

/-- C4: on a finite grid whose bounds satisfy `max > min`, every sample
`q` maps to `(q - min) / (max - min) * 255`, clamped to `[0, 255]` and
truncated to an integer; the grid `[0, 50, 100]` renders to
`[0, 127, 255]` (minimum to 0, maximum to 255, midpoint to 127, within
the claim's tolerance of 127 plus or minus 1, order preserved); and a
degenerate range (`max <= min`, in particular the all-42 grid) yields the
all-zero grid of identical shape rather than an error. -/
theorem C4_scaling_formula :
    (∀ (qs : List ℚ) (mn mx : ℚ),
      npNanmin (qs.map PyFloat.fin) = .fin mn →
      npNanmax (qs.map PyFloat.fin) = .fin mx →
      mn < mx →
      convertPixels (qs.map PyFloat.fin) = qs.map (claimedScale mn mx)) ∧
    convertPixels ([0, 50, 100].map PyFloat.fin) = [0, 127, 255] ∧
    (∀ (qs : List ℚ) (mn mx : ℚ),
      npNanmin (qs.map PyFloat.fin) = .fin mn →
      npNanmax (qs.map PyFloat.fin) = .fin mx →
      mx ≤ mn →
      convertPixels (qs.map PyFloat.fin) = List.replicate qs.length 0) ∧
    (∀ n : ℕ,
      convertPixels (List.replicate n (PyFloat.fin 42))
        = List.replicate n 0) := by
  have h1 : ∀ (qs : List ℚ) (mn mx : ℚ),
      npNanmin (qs.map PyFloat.fin) = .fin mn →
      npNanmax (qs.map PyFloat.fin) = .fin mx →
      mn < mx →
      convertPixels (qs.map PyFloat.fin) = qs.map (claimedScale mn mx) := by
    intro qs mn mx hmn hmx hlt
    unfold convertPixels normalizePixels
    rw [hmn, hmx]
    rw [if_pos (by simp [isFiniteF, pfLt, hlt])]
    rw [List.map_map, List.map_map]
    refine List.map_congr_left ?_
    intro q _
    show astypeUInt8 (npClip255 (pfMul (pfDiv (pfSub (.fin q) (.fin mn))
      (pfSub (.fin mx) (.fin mn))) (.fin 255))) = claimedScale mn mx q
    have hne : mx - mn ≠ 0 := sub_ne_zero_of_ne (ne_of_gt hlt)
    simp only [pfSub]
    rw [show pfDiv (.fin (q - mn)) (.fin (mx - mn))
        = .fin ((q - mn) / (mx - mn)) from by simp [pfDiv, hne]]
    simp only [pfMul, npClip255, astypeUInt8, claimedScale]
    have hw : min (255 : ℚ) (max 0 ((q - mn) / (mx - mn) * 255)) ≤ 255 :=
      min_le_left _ _
    have hfl : ⌊min (255 : ℚ) (max 0 ((q - mn) / (mx - mn) * 255))⌋
        ≤ 255 := le_trans (Int.floor_le_floor hw) (by norm_num)
    exact Nat.mod_eq_of_lt (Nat.lt_succ_of_le
      (Int.toNat_le.mpr (by exact_mod_cast hfl)))
  have hdeg : ∀ (qs : List ℚ) (mn mx : ℚ),
      npNanmin (qs.map PyFloat.fin) = .fin mn →
      npNanmax (qs.map PyFloat.fin) = .fin mx →
      mx ≤ mn →
      convertPixels (qs.map PyFloat.fin)
        = List.replicate qs.length 0 := by
    intro qs mn mx hmn hmx hle
    have hnl : ¬ mn < mx := not_lt.mpr hle
    have hz : convertPixels (qs.map PyFloat.fin)
        = List.replicate (qs.map PyFloat.fin).length 0 :=
      convertPixels_zeros (by rw [hmn, hmx]; simp [pfLt, isFiniteF, hnl])
    simpa [List.length_map] using hz
  refine ⟨h1, ?_, hdeg, ?_⟩
  · rw [h1 [0, 50, 100] 0 100 (by decide) (by decide) (by norm_num)]
    rw [show ([0, 50, 100] : List ℚ).map (claimedScale 0 100)
        = [claimedScale 0 100 0, claimedScale 0 100 50,
           claimedScale 0 100 100] from rfl]
    rw [claimedScale_eval 0 100 0 (by norm_num) (by norm_num) (by norm_num),
        claimedScale_eval 0 100 50 (by norm_num) (by norm_num) (by norm_num),
        claimedScale_eval 0 100 100 (by norm_num) (by norm_num) (by norm_num)]
    norm_num
    decide
  · intro n
    cases n with
    | zero => rfl
    | succ n =>
      have hz := hdeg (List.replicate (n + 1) 42) 42 42
        (by rw [List.map_replicate]; exact npNanmin_replicate n 42)
        (by rw [List.map_replicate]; exact npNanmax_replicate n 42)
        (le_refl _)
      rw [List.map_replicate] at hz
      simpa [List.length_replicate] using hz

/-- Witness for C4: the grid `[0, 50, 100]` has bounds 0 and 100 with
`0 < 100`, and the general scaling theorem applies to it; the constant
grid of four 42s renders to four zeros. -/
theorem C4_scaling_formula_witness :
    npNanmin ([0, 50, 100].map PyFloat.fin) = PyFloat.fin 0 ∧
    npNanmax ([0, 50, 100].map PyFloat.fin) = PyFloat.fin 100 ∧
    ((0 : ℚ) < 100) ∧
    convertPixels ([0, 50, 100].map PyFloat.fin)
      = [0, 50, 100].map (claimedScale 0 100) ∧
    convertPixels (List.replicate 4 (PyFloat.fin 42))
      = List.replicate 4 0 :=
  ⟨by decide, by decide, by norm_num,
   C4_scaling_formula.1 [0, 50, 100] 0 100 (by decide) (by decide)
     (by norm_num),
   C4_scaling_formula.2.2.2 4⟩

end DicomSvc
